import Mathlib

/-!
Verification of the paginated fetch engine of the Binance U-margined
futures data downloader (`1获取U本位合约数据binance.py`).

Shallow embedding conventions:
* Instants are milliseconds since the epoch, modelled as `Int` (the source
  works with pandas timestamps and `timedelta(milliseconds=1)` arithmetic,
  which is exact integer millisecond arithmetic).
* A data-frame row is a `Record`: only its timestamp and one representative
  numeric payload matter to the engine.
* The adapter (`fetch_func`) is a function from a requested window
  `[start, end]` to `Option (List Record)`; `none` models a `None` return
  and `some []` an empty frame — both fall into the failure branch of the
  loop, exactly as `if df is not None and len(df) > 0` does.
* The `while` loop of `_get_batched_data` (lines 473–520) is modelled by a
  fuel-indexed recursion `run` that also counts the adapter calls made; a
  `none` result means the fuel ran out before the loop exited, so any
  `some` result is a faithful complete execution of the loop.
* `time.sleep` and all printing are effect-free for the data contract and
  are not modelled.
-/

namespace BinanceFetch

/-- One row of a series data frame: a timestamp (ms since epoch) and a
representative numeric payload (the remaining columns play no role in the
pagination, dedup or sort logic). -/
structure Record where
  timestamp : Int
  value : Int
deriving DecidableEq, Repr

/-- The value `df['timestamp'].iloc[-1]` used by `_get_batched_data`
(line 488): the timestamp of the LAST row of the page.  The `0` default for
an empty page is never reached: the loop guards with `len(df) > 0`. -/
def pageNewest : List Record → Int
  | [] => 0
  | [r] => r.timestamp
  | _ :: rs => pageNewest rs

/-- The maximum timestamp occurring anywhere in a page (what the spec calls
`newest = max timestamp in page`); defined for comparison with
`pageNewest`, which is what the code actually computes. -/
def pageMax : List Record → Int
  | [] => 0
  | [r] => r.timestamp
  | r :: rs => max r.timestamp (pageMax rs)

/-- The loop state of `_get_batched_data`: `all_data`, `current_start`,
`last_timestamp` and `consecutive_failures` (lines 451–470). -/
structure LoopState where
  allData : List (List Record)
  currentStart : Int
  lastTimestamp : Option Int
  consecutiveFailures : Nat
deriving DecidableEq, Repr

/-- Result of one iteration of the loop body: the new state and whether the
iteration executed a `break`. -/
structure StepOut where
  state : LoopState
  stop : Bool
deriving DecidableEq, Repr

/-- The failure branch of the loop body (lines 508–517): increment
`consecutive_failures`, break once it reaches 3, otherwise advance the
cursor to `current_end + 1ms`. -/
def onFailure (currentEnd : Int) (s : LoopState) : StepOut :=
  let cf := s.consecutiveFailures + 1
  if cf ≥ 3 then ⟨⟨s.allData, s.currentStart, s.lastTimestamp, cf⟩, true⟩
  else ⟨⟨s.allData, currentEnd + 1, s.lastTimestamp, cf⟩, false⟩

/-- The success branch of the loop body (lines 486–506): read the last
row's timestamp, break on a stall (`current_last_timestamp <=
last_timestamp`), otherwise append the page, advance the cursor to the
last timestamp + 1ms, reset the failure counter, and break when the last
timestamp has reached `end_date`. -/
def onSuccess (endDate : Int) (s : LoopState) (page : List Record) : StepOut :=
  let cl := pageNewest page
  let advanced : StepOut :=
    if cl ≥ endDate then ⟨⟨s.allData ++ [page], cl + 1, some cl, 0⟩, true⟩
    else ⟨⟨s.allData ++ [page], cl + 1, some cl, 0⟩, false⟩
  match s.lastTimestamp with
  | some lt => if cl ≤ lt then ⟨s, true⟩ else advanced
  | none => advanced

/-- One iteration of the loop body of `_get_batched_data`, given the value
the adapter returned for the window `[s.currentStart, currentEnd]`.
`none` and the empty frame both take the failure branch, as
`if df is not None and len(df) > 0` does. -/
def stepBody (endDate currentEnd : Int) (s : LoopState) (df : Option (List Record)) : StepOut :=
  match df with
  | none => onFailure currentEnd s
  | some page => if page.isEmpty then onFailure currentEnd s else onSuccess endDate s page

/-- The `while current_start < end_date` loop (lines 473–520), fuel-indexed.
Each iteration computes `current_end = min(current_start + time_delta,
end_date)`, calls the adapter on that window and runs `stepBody`.  The
result is `some (final state, number of adapter calls)` when the loop
exited within `fuel` iterations and `none` when the fuel ran out first. -/
def run (fetch : Int → Int → Option (List Record)) (endDate timeDelta : Int) :
    Nat → LoopState → Option (LoopState × Nat)
  | 0, s => if s.currentStart < endDate then none else some (s, 0)
  | fuel + 1, s =>
    if s.currentStart < endDate then
      let currentEnd := min (s.currentStart + timeDelta) endDate
      let out := stepBody endDate currentEnd s (fetch s.currentStart currentEnd)
      if out.stop then some (out.state, 1)
      else
        match run fetch endDate timeDelta fuel out.state with
        | some (t, n) => some (t, n + 1)
        | none => none
    else some (s, 0)

/-- Comparison used by the final `sort_values('timestamp')`. -/
def tsLE (a b : Record) : Prop := a.timestamp ≤ b.timestamp

/-- Distinctness of timestamps, the shape of the dedup invariant. -/
def tsNE (a b : Record) : Prop := a.timestamp ≠ b.timestamp

instance : DecidableRel tsLE := fun a b => inferInstanceAs (Decidable (a.timestamp ≤ b.timestamp))

instance : IsTotal Record tsLE := ⟨fun a b => Int.le_total a.timestamp b.timestamp⟩

instance : IsTrans Record tsLE := ⟨fun _ _ _ h1 h2 => Int.le_trans h1 h2⟩

/-- Helper for `drop_duplicates(subset=['timestamp'])`: keep each row whose
timestamp has not been seen yet, scanning left to right (pandas keeps the
first occurrence, in the order of the concatenated frame). -/
def dedupAux : List Int → List Record → List Record
  | _, [] => []
  | seen, r :: rs =>
    if r.timestamp ∈ seen then dedupAux seen rs
    else r :: dedupAux (r.timestamp :: seen) rs

/-- The `result.drop_duplicates(subset=['timestamp'])` step (line 524). -/
def dropDupTs (l : List Record) : List Record := dedupAux [] l

/-- The merge step of lines 523–525: `pd.concat` of the accumulated pages,
`drop_duplicates(subset=['timestamp'])`, then `sort_values('timestamp')`
with `reset_index(drop=True)`.  The sort is modelled by insertion sort;
after the dedup all timestamps are pairwise distinct, so every comparison
sort produces this same sequence, and `reset_index` is the identity on the
sequence of rows. -/
def mergeResult (pages : List (List Record)) : List Record :=
  List.insertionSort tsLE (dedupAux [] pages.flatten)

/-- Lines 522–531: the merged result when at least one page was
accumulated, `None` (`"no data"`) otherwise. -/
def finalize (allData : List (List Record)) : Option (List Record) :=
  if allData.isEmpty then none else some (mergeResult allData)

/-- The whole of `_get_batched_data` for one series: run the loop from
`current_start = start_date` with empty accumulator, then merge.  Returns
`some (result, number of adapter calls)` if the loop exits within `fuel`
iterations. -/
def getBatchedData (fetch : Int → Int → Option (List Record)) (endDate timeDelta : Int)
    (fuel : Nat) (startDate : Int) : Option (Option (List Record) × Nat) :=
  match run fetch endDate timeDelta fuel ⟨[], startDate, none, 0⟩ with
  | some (s, n) => some (finalize s.allData, n)
  | none => none

/-- The `period_map` lookup of lines 455–467, in milliseconds, including
the `.get(period, timedelta(hours=500))` default for unknown periods. -/
def periodStep (period : String) : Int :=
  if period = "5m" then 2500 * 60000
  else if period = "15m" then 7500 * 60000
  else if period = "30m" then 15000 * 60000
  else if period = "1h" then 500 * 3600000
  else if period = "2h" then 1000 * 3600000
  else if period = "4h" then 2000 * 3600000
  else if period = "6h" then 3000 * 3600000
  else if period = "12h" then 6000 * 3600000
  else if period = "1d" then 500 * 86400000
  else 500 * 3600000

/-- A raw JSON payload as seen by an endpoint adapter after
`_make_request`:
* `null` — the transport returned `None`;
* `arr rows` — a well-shaped list payload whose rows parse into `Record`s;
* `badArr` — a NON-EMPTY list whose rows lack the expected columns, so the
  column accesses (`df['timestamp']` etc.) raise;
* `nonList` — a truthy non-list payload (e.g. the error object the API
  returns), on which `pd.DataFrame`/column access raises.
Falsy payloads (`None`, `[]`) are exactly `null` and `arr []`. -/
inductive RawPayload
  | null
  | arr (rows : List Record)
  | badArr
  | nonList
deriving DecidableEq, Repr

/-- Outcome of one endpoint-adapter call: a parsed frame, a `None` return
(`no data`), or a raised exception. -/
inductive AdapterResult
  | ok (records : List Record)
  | noData
  | exn
deriving DecidableEq, Repr

/-- Behaviour of `get_open_interest_hist` after the transport call
(lines 136–147): only
the falsy check `if not data: return None` guards the payload; a truthy
non-list payload or a wrong-shaped list reaches the DataFrame/column code
and raises.  The three long/short-ratio adapters (lines 149–285) have the
same shape. -/
def get_open_interest_hist : RawPayload → AdapterResult
  | .null => .noData
  | .arr [] => .noData
  | .arr rows => .ok rows
  | .badArr => .exn
  | .nonList => .exn

/-- Behaviour of `get_basis_data` after the transport call
(lines 313–333): it also
checks `isinstance(data, list)` and `len(data) == 0` and returns `None`
for a non-list payload; a non-empty list of wrong-shaped rows still
reaches `df['timestamp']` and raises.  `get_funding_rate` and `get_klines`
perform the same `not data or not isinstance(data, list) or len(data) == 0`
check. -/
def get_basis_data : RawPayload → AdapterResult
  | .null => .noData
  | .arr [] => .noData
  | .arr rows => .ok rows
  | .badArr => .exn
  | .nonList => .noData

/-- The sequential per-series structure of `get_all_comprehensive_data`
(lines 608–700): the series are fetched one after another with no
`try`/`except`, so the first series whose fetch raises aborts the whole
call and the remaining series are never attempted.  `Except.error ()`
models a fetch that raised; `Except.ok v` a fetch that returned `v`
(possibly `None`). -/
def seqSeries : List (Except Unit (Option (List Record))) →
    Except Unit (List (Option (List Record)))
  | [] => .ok []
  | .error e :: _ => .error e
  | .ok v :: xs =>
    match seqSeries xs with
    | .error e => .error e
    | .ok vs => .ok (v :: vs)

/-- Outcome of one attempt inside `_make_request`: a successful response
(its parsed JSON body) or one of the three caught exception classes
(`SSLError`, `Timeout`, `RequestException`). -/
inductive AttemptOutcome
  | success (payload : RawPayload)
  | sslError
  | timeout
  | reqError
deriving DecidableEq, Repr

/-- The retry loop of `_make_request` (lines 60–101), from attempt index
`attempt` with `rem` loop iterations left (`rem = maxRetries - attempt` at
the top call).  Returns the result, the number of attempts made, and the
list of waits slept between attempts; on a caught exception the code waits
`(attempt + 1) * 2` seconds when more attempts remain, else returns
`None`. -/
def makeRequestAux (outcomes : Nat → AttemptOutcome) (maxRetries : Nat) :
    Nat → Nat → Option RawPayload × Nat × List Nat
  | _, 0 => (none, 0, [])
  | attempt, rem + 1 =>
    match outcomes attempt with
    | .success p => (some p, 1, [])
    | _ =>
      if attempt < maxRetries - 1 then
        let r := makeRequestAux outcomes maxRetries (attempt + 1) rem
        (r.1, r.2.1 + 1, (attempt + 1) * 2 :: r.2.2)
      else (none, 1, [])

/-- The full `_make_request(url, params, max_retries)`: every adapter calls it with
the default `max_retries = 3`. -/
def make_request (outcomes : Nat → AttemptOutcome) (maxRetries : Nat) :
    Option RawPayload × Nat × List Nat :=
  makeRequestAux outcomes maxRetries 0 maxRetries

/-- The urllib3 `Retry` configuration built by `_create_session`
(lines 35–40): 5 status-code-driven retries with `backoff_factor = 1`,
for HTTP 429/500/502/503/504 only — a layer below, and separate from, the
exception handling of `_make_request`. -/
structure RetryConfig where
  total : Nat
  backoff_factor : Nat
  status_forcelist : List Nat
deriving DecidableEq, Repr

/-- The concrete `retry_strategy` of `_create_session`. -/
def create_session : RetryConfig := ⟨5, 1, [429, 500, 502, 503, 504]⟩

/-- The stub adapter of the spec's step-advance scenario: for each
requested window it returns exactly one record timestamped at the
window's start instant. -/
def msAdapter : Int → Int → Option (List Record) := fun a _ => some [⟨a, 0⟩]

/-- Milliseconds since the epoch at 2024-01-01T00:00:00Z. -/
def c3Start : Int := 1704067200000

/-- Milliseconds since the epoch at 2024-01-04T00:00:00Z: three days
(259200000 ms) after `c3Start`. -/
def c3End : Int := c3Start + 259200000

/-- One record per millisecond of the requested range: what the engine
actually accumulates under the scenario's stub adapter, because the cursor
advances to the page's last timestamp + 1ms, not to the window end. -/
def c3Records : List Record :=
  (List.range 259200000).map (fun (k : Nat) => ⟨c3Start + (k : Int), 0⟩)

/-! ### Unfolding lemmas for the loop -/

theorem run_zero (f : Int → Int → Option (List Record)) (e d : Int) (s : LoopState) :
    run f e d 0 s = if s.currentStart < e then none else some (s, 0) := rfl

theorem run_succ (f : Int → Int → Option (List Record)) (e d : Int) (fuel : Nat)
    (s : LoopState) :
    run f e d (fuel + 1) s =
      if s.currentStart < e then
        (if (stepBody e (min (s.currentStart + d) e) s
              (f s.currentStart (min (s.currentStart + d) e))).stop then
          some ((stepBody e (min (s.currentStart + d) e) s
              (f s.currentStart (min (s.currentStart + d) e))).state, 1)
        else
          match run f e d fuel (stepBody e (min (s.currentStart + d) e) s
              (f s.currentStart (min (s.currentStart + d) e))).state with
          | some (t, n) => some (t, n + 1)
          | none => none)
      else some (s, 0) := rfl

theorem run_exit (f : Int → Int → Option (List Record)) (e d : Int) (fuel : Nat)
    (s : LoopState) (h : ¬ s.currentStart < e) :
    run f e d fuel s = some (s, 0) := by
  cases fuel with
  | zero => rw [run_zero, if_neg h]
  | succ n => rw [run_succ, if_neg h]

theorem getBatchedData_eq (f : Int → Int → Option (List Record)) (e d : Int)
    (fuel : Nat) (st : Int) :
    getBatchedData f e d fuel st =
      match run f e d fuel ⟨[], st, none, 0⟩ with
      | some (s, n) => some (finalize s.allData, n)
      | none => none := rfl

/-! ### C1: stall termination -/

/-- C1: once some page has carried `last_timestamp` to (at least) the
synthetic end of history `E` and the cursor sits past `E`, an adapter that
answers every window starting past `E` with a non-empty page whose last
(and maximum) timestamp equals `E` makes the loop of `_get_batched_data`
terminate within one more adapter call: that page's last timestamp is
`<= last_timestamp`, which fires the stall `break` of line 491. -/
theorem c1_stall_termination (f : Int → Int → Option (List Record)) (E e d : Int)
    (s : LoopState) (lt : Int)
    (hf : ∀ a b, E < a → ∃ p, f a b = some p ∧ p ≠ [] ∧ pageNewest p = E ∧ pageMax p = E)
    (hlast : s.lastTimestamp = some lt) (hE : E ≤ lt) (hcs : E < s.currentStart) :
    ∃ s' n, run f e d 1 s = some (s', n) ∧ n ≤ 1 := by
  by_cases h : s.currentStart < e
  · obtain ⟨p, hp, hne, hnew, -⟩ := hf s.currentStart (min (s.currentStart + d) e) hcs
    have hstep : stepBody e (min (s.currentStart + d) e) s
        (f s.currentStart (min (s.currentStart + d) e)) = ⟨s, true⟩ := by
      rw [hp]
      cases p with
      | nil => exact absurd rfl hne
      | cons r rs =>
        show onSuccess e s (r :: rs) = ⟨s, true⟩
        unfold onSuccess
        rw [hlast, hnew]
        simp [hE]
    refine ⟨s, 1, ?_, le_refl 1⟩
    rw [show (1 : Nat) = 0 + 1 from rfl, run_succ, if_pos h, hstep]
    rfl
  · exact ⟨s, 0, run_exit f e d 1 s h, by omega⟩

/-- Witness for C1: a concrete adapter that echoes the page at `E = 5` for
every window, in the state just after the first page reaching `E`. -/
theorem c1_stall_termination_witness :
    ∃ s' n, run (fun _ _ => some [⟨5, 0⟩]) 100 10 1 ⟨[[⟨5, 0⟩]], 6, some 5, 0⟩ =
      some (s', n) ∧ n ≤ 1 :=
  c1_stall_termination (fun _ _ => some [⟨5, 0⟩]) 5 100 10 ⟨[[⟨5, 0⟩]], 6, some 5, 0⟩ 5
    (fun _ _ _ => ⟨[⟨5, 0⟩], rfl, by simp, rfl, rfl⟩) rfl (le_refl 5) (by decide)

/-! ### C2: bounded-failure termination -/

/-- One failing adapter call with the failure budget not yet exhausted:
the counter goes up by one and the cursor jumps to `current_end + 1ms`. -/
theorem stepBody_fail_lt (e ce : Int) (a : List (List Record)) (cs : Int)
    (lt : Option Int) (cf : Nat) (df : Option (List Record))
    (h : df = none ∨ df = some []) (hcf : cf + 1 < 3) :
    stepBody e ce ⟨a, cs, lt, cf⟩ df = ⟨⟨a, ce + 1, lt, cf + 1⟩, false⟩ := by
  rcases h with rfl | rfl <;>
    · show onFailure ce ⟨a, cs, lt, cf⟩ = _
      show (if cf + 1 ≥ 3 then (⟨⟨a, cs, lt, cf + 1⟩, true⟩ : StepOut)
        else ⟨⟨a, ce + 1, lt, cf + 1⟩, false⟩) = _
      rw [if_neg (by omega)]

/-- The third consecutive failing call: the loop breaks, cursor unchanged. -/
theorem stepBody_fail_max (e ce : Int) (a : List (List Record)) (cs : Int)
    (lt : Option Int) (df : Option (List Record)) (h : df = none ∨ df = some []) :
    stepBody e ce ⟨a, cs, lt, 2⟩ df = ⟨⟨a, cs, lt, 3⟩, true⟩ := by
  rcases h with rfl | rfl <;> rfl

/-- One loop iteration of an always-failing fetch, failure budget left. -/
theorem run_fail_adv (f : Int → Int → Option (List Record)) (e d : Int) (fuel : Nat)
    (a : List (List Record)) (cs : Int) (lt : Option Int) (cf : Nat)
    (hf : ∀ x y, f x y = none ∨ f x y = some [])
    (hcs : cs < e) (hcf : cf + 1 < 3) :
    run f e d (fuel + 1) ⟨a, cs, lt, cf⟩ =
      match run f e d fuel ⟨a, min (cs + d) e + 1, lt, cf + 1⟩ with
      | some (t, n) => some (t, n + 1)
      | none => none := by
  rw [run_succ]
  show (if cs < e then _ else _) = _
  rw [if_pos hcs, stepBody_fail_lt e (min (cs + d) e) a cs lt cf _ (hf _ _) hcf]
  rfl

/-- The loop iteration of the third consecutive failure stops the loop. -/
theorem run_fail_stop (f : Int → Int → Option (List Record)) (e d : Int) (fuel : Nat)
    (a : List (List Record)) (cs : Int) (lt : Option Int)
    (hf : ∀ x y, f x y = none ∨ f x y = some [])
    (hcs : cs < e) :
    run f e d (fuel + 1) ⟨a, cs, lt, 2⟩ = some (⟨a, cs, lt, 3⟩, 1) := by
  rw [run_succ]
  show (if cs < e then _ else _) = _
  rw [if_pos hcs, stepBody_fail_max e (min (cs + d) e) a cs lt _ (hf _ _)]
  rfl

/-- C2 counterexample: when the requested range fits in a single window
(`end_date - start_date <= step`), an adapter that always returns `None`
makes the engine terminate after exactly ONE adapter call, not 3: the
failure path advances the cursor past `end_date` and the loop condition
ends the loop with `consecutive_failures = 1`. -/
theorem c2_counterexample :
    getBatchedData (fun _ _ => none) 1 10 5 0 = some (none, 1) ∧ (1 : Nat) ≠ 3 :=
  ⟨rfl, by decide⟩

/-- C2 amended: if the adapter returns `None` (or an empty frame) on every
call, `_get_batched_data` terminates after AT MOST 3 adapter calls and
returns `None` (no data); the count is exactly 3 whenever the requested
range spans more than two failure-advanced windows
(`start + 2*step + 2ms < end`), which is the regime the spec's property
describes. -/
theorem c2_bounded_failure (f : Int → Int → Option (List Record)) (e d st : Int) (k : Nat)
    (hf : ∀ x y, f x y = none ∨ f x y = some [])
    (hd : 0 < d) :
    ∃ n, getBatchedData f e d (k + 3) st = some (none, n) ∧ n ≤ 3 ∧
      (st + 2 * d + 2 < e → n = 3) := by
  unfold getBatchedData
  by_cases h0 : st < e
  · by_cases h1 : min (st + d) e + 1 < e
    · by_cases h2 : min (min (st + d) e + 1 + d) e + 1 < e
      · have hrun : run f e d (k + 3) ⟨[], st, none, 0⟩ =
            some (⟨[], min (min (st + d) e + 1 + d) e + 1, none, 3⟩, 3) := by
          rw [show k + 3 = (k + 2) + 1 from rfl,
            run_fail_adv f e d (k + 2) [] st none 0 hf h0 (by omega),
            show k + 2 = (k + 1) + 1 from rfl,
            run_fail_adv f e d (k + 1) [] (min (st + d) e + 1) none 1 hf h1 (by omega),
            run_fail_stop f e d k [] (min (min (st + d) e + 1 + d) e + 1) none hf h2]
        exact ⟨3, by rw [hrun]; rfl, by omega, fun _ => rfl⟩
      · have hrun : run f e d (k + 3) ⟨[], st, none, 0⟩ =
            some (⟨[], min (min (st + d) e + 1 + d) e + 1, none, 2⟩, 2) := by
          rw [show k + 3 = (k + 2) + 1 from rfl,
            run_fail_adv f e d (k + 2) [] st none 0 hf h0 (by omega),
            show k + 2 = (k + 1) + 1 from rfl,
            run_fail_adv f e d (k + 1) [] (min (st + d) e + 1) none 1 hf h1 (by omega),
            run_exit f e d (k + 1) ⟨[], min (min (st + d) e + 1 + d) e + 1, none, 1 + 1⟩ h2]
        exact ⟨2, by rw [hrun]; rfl, by omega, fun hlt => absurd hlt (by omega)⟩
    · have hrun : run f e d (k + 3) ⟨[], st, none, 0⟩ =
          some (⟨[], min (st + d) e + 1, none, 1⟩, 1) := by
        rw [show k + 3 = (k + 2) + 1 from rfl,
          run_fail_adv f e d (k + 2) [] st none 0 hf h0 (by omega),
          run_exit f e d (k + 2) ⟨[], min (st + d) e + 1, none, 0 + 1⟩ h1]
      exact ⟨1, by rw [hrun]; rfl, by omega, fun hlt => absurd hlt (by omega)⟩
  · rw [run_exit f e d (k + 3) ⟨[], st, none, 0⟩ h0]
    exact ⟨0, rfl, by omega, fun hlt => absurd hlt (by omega)⟩

/-- Witness for C2 at a concrete always-`None` adapter over a long range. -/
theorem c2_bounded_failure_witness :
    ∃ n, getBatchedData (fun _ _ => none) 100 1 (0 + 3) 0 = some (none, n) ∧ n ≤ 3 ∧
      ((0 : Int) + 2 * 1 + 2 < 100 → n = 3) :=
  c2_bounded_failure (fun _ _ => none) 100 1 0 0 (fun _ _ => Or.inl rfl) (by decide)

/-! ### C10: default step for unknown periods -/

/-- C10: for every period string not among the nine `period_map` keys,
`_get_batched_data` does not fail; its windowing silently uses the lookup
default of 500 hours (here in milliseconds: `500 * 3600000`). -/
theorem c10_default_step (p : String)
    (h : p ∉ (["5m", "15m", "30m", "1h", "2h", "4h", "6h", "12h", "1d"] : List String)) :
    periodStep p = 500 * 3600000 := by
  simp only [List.mem_cons, List.not_mem_nil, or_false, not_or] at h
  obtain ⟨h1, h2, h3, h4, h5, h6, h7, h8, h9⟩ := h
  simp [periodStep, h1, h2, h3, h4, h5, h6, h7, h8, h9]

/-- Witness for C10 at the concrete unknown period string `1w`. -/
theorem c10_default_step_witness : periodStep "1w" = 500 * 3600000 :=
  c10_default_step "1w" (by decide)

/-! ### C5: transport retry policy -/

/-- C5 counterexample: a transport whose every attempt times out makes the
retry loop of `_make_request` (called with its default `max_retries = 3`)
perform exactly 3 attempts with waits of 2 and 4 seconds — not the claimed
5 attempts with linear waits equal to the attempt index. -/
theorem c5_counterexample :
    make_request (fun _ => AttemptOutcome.timeout) 3 = (none, 3, [2, 4]) ∧
    (3 : Nat) ≠ 5 ∧ ([2, 4] : List Nat) ≠ [1, 2] := by
  exact ⟨rfl, by decide, by decide⟩

/-- C5 amended: for every request whose attempts all fail with a retryable
exception (SSL error, timeout, other request exception), `_make_request`
makes exactly 3 attempts (its default bound), waiting `2 * attempt_index`
seconds between attempts (2s, then 4s), before returning `None`; the
session-level urllib3 `Retry` built by `_create_session` is a separate
mechanism bounded at 5, driven by HTTP status codes only. -/
theorem c5_retry_policy (outcomes : Nat → AttemptOutcome)
    (h : ∀ n, outcomes n = AttemptOutcome.sslError ∨ outcomes n = AttemptOutcome.timeout ∨
      outcomes n = AttemptOutcome.reqError) :
    make_request outcomes 3 = (none, 3, [2, 4]) ∧ create_session.total = 5 := by
  refine ⟨?_, rfl⟩
  rcases h 0 with e0 | e0 | e0 <;> rcases h 1 with e1 | e1 | e1 <;>
    rcases h 2 with e2 | e2 | e2 <;>
    simp [make_request, makeRequestAux, e0, e1, e2]

/-- Witness for C5 at the concrete always-SSL-error transport. -/
theorem c5_retry_policy_witness :
    make_request (fun _ => AttemptOutcome.sslError) 3 = (none, 3, [2, 4]) ∧
      create_session.total = 5 :=
  c5_retry_policy (fun _ => AttemptOutcome.sslError) (fun _ => Or.inl rfl)

/-! ### C9: what the engine uses as `newest` -/

/-- C9 counterexample: on the page `[(ts 5), (ts 3)]` (not ascending), the
engine advances the cursor to `pageNewest + 1 = 4` — the last row's
timestamp plus 1ms — while the page maximum is 5, so the value used is not
the maximum timestamp occurring in the page. -/
theorem c9_counterexample :
    (stepBody 1000 100 ⟨[], 0, none, 0⟩ (some [⟨5, 0⟩, ⟨3, 0⟩])).state.currentStart = 4 ∧
    pageMax [⟨5, 0⟩, ⟨3, 0⟩] = 5 ∧ (4 : Int) ≠ 5 + 1 := by
  refine ⟨rfl, by decide, by decide⟩

/-- The head's timestamp is bounded by the page maximum. -/
theorem head_ts_le_pageMax (r : Record) (rs : List Record) :
    r.timestamp ≤ pageMax (r :: rs) := by
  cases rs with
  | nil => exact le_refl _
  | cons s t => exact le_max_left _ _

/-- C9 amended: the value the engine uses as `newest` is the timestamp of
the page's LAST row (`df['timestamp'].iloc[-1]`); it equals the maximum
timestamp occurring anywhere in the page exactly when the page is sorted
ascending by timestamp (as real API pages are), not for arbitrary pages. -/
theorem c9_newest_eq_max_of_sorted (p : List Record) (hne : p ≠ [])
    (hs : List.Sorted tsLE p) : pageNewest p = pageMax p := by
  induction p with
  | nil => exact absurd rfl hne
  | cons x xs ih =>
    cases xs with
    | nil => rfl
    | cons y t =>
      rw [List.sorted_cons] at hs
      have hxy : tsLE x y := hs.1 y (List.mem_cons_self y t)
      have htail : pageNewest (y :: t) = pageMax (y :: t) := ih (by simp) hs.2
      have hle : x.timestamp ≤ pageMax (y :: t) :=
        le_trans hxy (head_ts_le_pageMax y t)
      show pageNewest (y :: t) = pageMax (x :: y :: t)
      rw [htail]
      show pageMax (y :: t) = max x.timestamp (pageMax (y :: t))
      exact (max_eq_right hle).symm

/-- Witness for C9 at a concrete ascending two-row page. -/
theorem c9_newest_eq_max_of_sorted_witness :
    pageNewest [⟨1, 0⟩, ⟨3, 0⟩] = pageMax [⟨1, 0⟩, ⟨3, 0⟩] :=
  c9_newest_eq_max_of_sorted [⟨1, 0⟩, ⟨3, 0⟩] (by decide) (by
    constructor
    · intro b hb
      simp only [List.mem_singleton] at hb
      subst hb
      exact (by decide : (1 : Int) ≤ 3)
    · simp [List.Sorted])

/-! ### C6: cursor monotonicity -/

/-- C6 counterexample: one loop iteration in which the adapter returns a
non-empty page whose rows lie before the requested window (a behaviour the
claim quantifies over) moves the cursor from 100 down to 1: the cursor CAN
decrease before any `last_timestamp` is recorded. -/
theorem c6_counterexample :
    (stepBody 200 150 ⟨[], 100, none, 0⟩ (some [⟨0, 0⟩])).state.currentStart = 1 ∧
    (1 : Int) < 100 := ⟨rfl, by decide⟩

/-- C6 amended: within one loop iteration of `_get_batched_data` (positive
step, cursor still before `end_date`), the cursor never decreases provided
every non-empty page the adapter returns has its last timestamp at or
after the requested window start: the failure path moves it to
`current_end + 1ms > current_start`, the success path to the page's last
timestamp `+ 1ms`, and the `break` paths leave it unchanged. -/
theorem c6_cursor_monotone (e d : Int) (s : LoopState) (df : Option (List Record))
    (hd : 0 < d) (hcs : s.currentStart < e)
    (hpage : ∀ p, df = some p → p ≠ [] → s.currentStart ≤ pageNewest p) :
    s.currentStart ≤ (stepBody e (min (s.currentStart + d) e) s df).state.currentStart := by
  have hfail : s.currentStart ≤ (onFailure (min (s.currentStart + d) e) s).state.currentStart := by
    unfold onFailure
    by_cases h3 : s.consecutiveFailures + 1 ≥ 3
    · simp [h3]
    · simp only [h3, if_false]
      have : s.currentStart ≤ min (s.currentStart + d) e := by
        apply le_min <;> omega
      omega
  cases df with
  | none => exact hfail
  | some p =>
    cases p with
    | nil => simpa [stepBody] using hfail
    | cons r rs =>
      have hp : s.currentStart ≤ pageNewest (r :: rs) :=
        hpage (r :: rs) rfl (by simp)
      show s.currentStart ≤ (stepBody e _ s (some (r :: rs))).state.currentStart
      unfold stepBody
      simp only [List.isEmpty_cons, Bool.false_eq_true, if_false]
      unfold onSuccess
      cases hlt : s.lastTimestamp with
      | none =>
        by_cases hge : pageNewest (r :: rs) ≥ e <;> simp [hge] <;> omega
      | some lt =>
        by_cases hstall : pageNewest (r :: rs) ≤ lt
        · simp [hstall]
        · by_cases hge : pageNewest (r :: rs) ≥ e <;> simp [hstall, hge] <;> omega

/-- Witness for C6 at a concrete in-window page. -/
theorem c6_cursor_monotone_witness :
    (0 : Int) ≤ (stepBody 10 (min (0 + 1) 10) ⟨[], 0, none, 0⟩
      (some [⟨0, 0⟩])).state.currentStart :=
  c6_cursor_monotone 10 1 ⟨[], 0, none, 0⟩ (some [⟨0, 0⟩]) (by decide) (by decide)
    (fun p hp _ => by
      injection hp with h
      rw [← h]
      decide)

/-! ### C4: error containment across adapters and series -/

/-- C4 counterexample: `get_open_interest_hist` handed a truthy non-list
payload (the structural-check failure the claim covers) raises instead of
returning `None`, and in the sequential `get_all_comprehensive_data` a
series whose fetch raises prevents all later series from being attempted. -/
theorem c4_counterexample :
    get_open_interest_hist RawPayload.nonList = AdapterResult.exn ∧
    get_open_interest_hist RawPayload.nonList ≠ AdapterResult.noData ∧
    seqSeries [Except.ok (some []), Except.error (), Except.ok none] = Except.error () :=
  ⟨rfl, by decide, rfl⟩

/-- In the sequential aggregator, the first raising series aborts the
whole call: everything after it is never attempted. -/
theorem seqSeries_append_error (ys : List (Except Unit (Option (List Record)))) :
    ∀ xs : List (Except Unit (Option (List Record))),
      (∀ x ∈ xs, x ≠ Except.error ()) →
      seqSeries (xs ++ Except.error () :: ys) = Except.error ()
  | [], _ => rfl
  | Except.error e :: t, h => by
    cases e
    exact absurd rfl (h (Except.error ()) (List.mem_cons_self _ t))
  | Except.ok v :: t, h => by
    have ht := seqSeries_append_error ys t (fun z hz => h z (List.mem_cons_of_mem _ hz))
    show seqSeries (Except.ok v :: (t ++ Except.error () :: ys)) = Except.error ()
    unfold seqSeries
    rw [ht]

/-- C4 amended: every adapter returns `None` (no exception) when the
payload is falsy (`None` or the empty list); `get_basis_data` (like the
funding-rate and klines adapters) additionally returns `None` on a truthy
non-list payload, but `get_open_interest_hist` (like the three ratio
adapters) raises on it; and in `get_all_comprehensive_data` the first
series whose fetch raises aborts the whole call, so a hard failure in one
series DOES prevent the remaining series from being attempted. -/
theorem c4_error_containment (p : RawPayload)
    (hp : p = RawPayload.null ∨ p = RawPayload.arr [])
    (xs ys : List (Except Unit (Option (List Record))))
    (hxs : ∀ x ∈ xs, x ≠ Except.error ()) :
    get_open_interest_hist p = AdapterResult.noData ∧
    get_basis_data p = AdapterResult.noData ∧
    get_basis_data RawPayload.nonList = AdapterResult.noData ∧
    get_open_interest_hist RawPayload.nonList = AdapterResult.exn ∧
    seqSeries (xs ++ Except.error () :: ys) = Except.error () := by
  refine ⟨?_, ?_, rfl, rfl, ?_⟩
  · rcases hp with rfl | rfl <;> rfl
  · rcases hp with rfl | rfl <;> rfl
  · exact seqSeries_append_error ys xs hxs

/-- Witness for C4 at concrete payloads and a concrete series list. -/
theorem c4_error_containment_witness :
    get_open_interest_hist RawPayload.null = AdapterResult.noData ∧
    get_basis_data RawPayload.null = AdapterResult.noData ∧
    get_basis_data RawPayload.nonList = AdapterResult.noData ∧
    get_open_interest_hist RawPayload.nonList = AdapterResult.exn ∧
    seqSeries ([Except.ok (some [])] ++ Except.error () :: [Except.ok none]) =
      Except.error () :=
  c4_error_containment RawPayload.null (Or.inl rfl) [Except.ok (some [])] [Except.ok none]
    (fun x hx => by
      rw [List.mem_singleton] at hx
      subst hx
      exact fun hc => Except.noConfusion hc)

/-! ### The final merge: dedup and sort -/

/-- Membership in the dedup scan: exactly the first row bearing each
not-yet-seen timestamp survives `drop_duplicates(subset=['timestamp'])`. -/
theorem mem_dedupAux (r : Record) :
    ∀ (l : List Record) (seen : List Int),
      r ∈ dedupAux seen l ↔
        r.timestamp ∉ seen ∧ l.find? (fun x => x.timestamp == r.timestamp) = some r
  | [], seen => by simp [dedupAux]
  | x :: xs, seen => by
    show r ∈ (if x.timestamp ∈ seen then dedupAux seen xs
        else x :: dedupAux (x.timestamp :: seen) xs) ↔ _
    by_cases hx : x.timestamp ∈ seen
    · rw [if_pos hx]
      by_cases hxr : x.timestamp = r.timestamp
      · constructor
        · intro hmem
          exact absurd (hxr ▸ hx) ((mem_dedupAux r xs seen).mp hmem).1
        · intro h2
          exact absurd (hxr ▸ hx) h2.1
      · rw [List.find?_cons_of_neg _ (by simp [hxr])]
        exact mem_dedupAux r xs seen
    · rw [if_neg hx, List.mem_cons]
      by_cases hxr : x.timestamp = r.timestamp
      · rw [List.find?_cons_of_pos _ (by simp [hxr])]
        constructor
        · rintro (rfl | hmem)
          · exact ⟨hx, rfl⟩
          · have h2 := (mem_dedupAux r xs (x.timestamp :: seen)).mp hmem
            exact absurd (List.mem_cons.mpr (Or.inl hxr.symm)) h2.1
        · rintro ⟨hns, heq⟩
          exact Or.inl (Option.some.inj heq).symm
      · rw [List.find?_cons_of_neg _ (by simp [hxr])]
        constructor
        · rintro (rfl | hmem)
          · exact absurd rfl hxr
          · have h2 := (mem_dedupAux r xs (x.timestamp :: seen)).mp hmem
            exact ⟨fun hc => h2.1 (List.mem_cons_of_mem _ hc), h2.2⟩
        · rintro ⟨hns, hfind⟩
          refine Or.inr ((mem_dedupAux r xs (x.timestamp :: seen)).mpr ⟨?_, hfind⟩)
          intro hc
          rcases List.mem_cons.mp hc with h | h
          · exact hxr h.symm
          · exact hns h

/-- The dedup scan yields pairwise-distinct timestamps, none of them
previously seen. -/
theorem pairwise_dedupAux :
    ∀ (l : List Record) (seen : List Int),
      (dedupAux seen l).Pairwise tsNE ∧ ∀ r ∈ dedupAux seen l, r.timestamp ∉ seen
  | [], seen => by simp [dedupAux]
  | x :: xs, seen => by
    by_cases hx : x.timestamp ∈ seen
    · have heq : dedupAux seen (x :: xs) = dedupAux seen xs := by
        show (if x.timestamp ∈ seen then dedupAux seen xs
          else x :: dedupAux (x.timestamp :: seen) xs) = dedupAux seen xs
        rw [if_pos hx]
      rw [heq]
      exact pairwise_dedupAux xs seen
    · have heq : dedupAux seen (x :: xs) = x :: dedupAux (x.timestamp :: seen) xs := by
        show (if x.timestamp ∈ seen then dedupAux seen xs
          else x :: dedupAux (x.timestamp :: seen) xs) = x :: dedupAux (x.timestamp :: seen) xs
        rw [if_neg hx]
      rw [heq]
      obtain ⟨hpw, hmem⟩ := pairwise_dedupAux xs (x.timestamp :: seen)
      constructor
      · refine List.Pairwise.cons ?_ hpw
        intro b hb hc
        exact hmem b hb (List.mem_cons.mpr (Or.inl hc.symm))
      · intro r hr
        rcases List.mem_cons.mp hr with rfl | hr2
        · exact hx
        · exact fun hc => hmem r hr2 (List.mem_cons_of_mem _ hc)

/-- Rows with pairwise-distinct timestamps, none previously seen, pass the
dedup scan unchanged. -/
theorem dedupAux_eq_self :
    ∀ (l : List Record) (seen : List Int), l.Pairwise tsNE →
      (∀ r ∈ l, r.timestamp ∉ seen) → dedupAux seen l = l
  | [], _, _, _ => rfl
  | x :: xs, seen, hpw, hmem => by
    have hx : x.timestamp ∉ seen := hmem x (List.mem_cons_self x xs)
    have heq : dedupAux seen (x :: xs) = x :: dedupAux (x.timestamp :: seen) xs := by
      show (if x.timestamp ∈ seen then dedupAux seen xs
        else x :: dedupAux (x.timestamp :: seen) xs) = x :: dedupAux (x.timestamp :: seen) xs
      rw [if_neg hx]
    rw [heq]
    rw [List.pairwise_cons] at hpw
    congr 1
    refine dedupAux_eq_self xs (x.timestamp :: seen) hpw.2 ?_
    intro r hr hc
    rcases List.mem_cons.mp hc with h | h
    · exact hpw.1 r hr h.symm
    · exact hmem r (List.mem_cons_of_mem _ hr) h

theorem tsNE_symmetric : Symmetric tsNE := fun _ _ h => h.symm

/-- The merged frame has pairwise-distinct timestamps. -/
theorem pairwise_mergeResult (pages : List (List Record)) :
    (mergeResult pages).Pairwise tsNE :=
  (List.Perm.pairwise_iff (fun h => Ne.symm h) (List.perm_insertionSort tsLE _)).mpr
    (pairwise_dedupAux pages.flatten []).1

/-- The merged frame is sorted ascending by timestamp. -/
theorem sorted_mergeResult (pages : List (List Record)) :
    List.Sorted tsLE (mergeResult pages) :=
  List.sorted_insertionSort tsLE _

/-! ### C7 and C8: the merge step -/

/-- C7: the final merge step (concatenate the accumulated pages, drop
exact-timestamp duplicates, sort ascending by timestamp, reset the index)
is idempotent: applying it a second time, to its own output taken as the
single accumulated page, returns the very same sequence of rows. -/
theorem c7_idempotent_dedup (pages : List (List Record)) :
    mergeResult [mergeResult pages] = mergeResult pages := by
  have hpw : (mergeResult pages).Pairwise tsNE := pairwise_mergeResult pages
  have hsorted : List.Sorted tsLE (mergeResult pages) := sorted_mergeResult pages
  calc mergeResult [mergeResult pages]
      = List.insertionSort tsLE (dedupAux [] (mergeResult pages)) := by
        show List.insertionSort tsLE (dedupAux [] ([mergeResult pages].flatten)) = _
        simp
    _ = List.insertionSort tsLE (mergeResult pages) := by
        rw [dedupAux_eq_self (mergeResult pages) [] hpw
          (fun r _ => List.not_mem_nil r.timestamp)]
    _ = mergeResult pages := List.Sorted.insertionSort_eq hsorted

/-- C8: for every accumulated list of pages, the merged result is sorted
ascending by timestamp with pairwise-distinct timestamps, and the rows it
keeps are exactly the FIRST occurrence of each timestamp in the
concatenated pages — `drop_duplicates` keeps the first occurrence, and the
subsequent sort (over now-distinct timestamps) orders them ascending, which
coincides with dropping duplicates after a stable ascending sort. -/
theorem c8_dedup_keep_first (pages : List (List Record)) :
    List.Sorted tsLE (mergeResult pages) ∧
    (mergeResult pages).Pairwise tsNE ∧
    ∀ r : Record, r ∈ mergeResult pages ↔
      pages.flatten.find? (fun x => x.timestamp == r.timestamp) = some r := by
  refine ⟨sorted_mergeResult pages, pairwise_mergeResult pages, fun r => ?_⟩
  show r ∈ List.insertionSort tsLE (dedupAux [] pages.flatten) ↔ _
  rw [List.mem_insertionSort, mem_dedupAux r pages.flatten []]
  simp

/-! ### C3: the step-advance scenario -/

/-- Complete characterisation of the loop under the scenario's stub
adapter: from a cursor `c` with `n = end - c` milliseconds remaining (and
any recorded `last_timestamp` strictly below `c`), the loop makes exactly
`n` adapter calls, accumulating one single-record page per millisecond,
because each success moves the cursor to the page's last timestamp + 1ms
— i.e. one millisecond forward — and no stall ever fires. -/
theorem run_msAdapter :
    ∀ (n : Nat) (e d : Int) (acc : List (List Record)) (c : Int)
      (last : Option Int) (cf : Nat),
      c + (n : Int) = e → (∀ lt, last = some lt → lt < c) →
      run msAdapter e d n ⟨acc, c, last, cf⟩ =
        some (⟨acc ++ (List.range n).map (fun (k : Nat) => [(⟨c + (k : Int), 0⟩ : Record)]), e,
          if n = 0 then last else some (e - 1),
          if n = 0 then cf else 0⟩, n)
  | 0, e, d, acc, c, last, cf, hce, hlast => by
    have hc : c = e := by omega
    subst hc
    rw [run_exit msAdapter c d 0 ⟨acc, c, last, cf⟩ (lt_irrefl c)]
    simp
  | n + 1, e, d, acc, c, last, cf, hce, hlast => by
    have hc : c < e := by omega
    rw [run_succ]
    show (if c < e then _ else _) = _
    rw [if_pos hc]
    have hstep : stepBody e (min (c + d) e) ⟨acc, c, last, cf⟩
        (msAdapter c (min (c + d) e)) =
        ⟨⟨acc ++ [[⟨c, 0⟩]], c + 1, some c, 0⟩, false⟩ := by
      show onSuccess e ⟨acc, c, last, cf⟩ [⟨c, 0⟩] = _
      unfold onSuccess
      cases last with
      | none =>
        show (if (c : Int) ≥ e then (⟨⟨acc ++ [[⟨c, 0⟩]], c + 1, some c, 0⟩, true⟩ : StepOut)
          else ⟨⟨acc ++ [[⟨c, 0⟩]], c + 1, some c, 0⟩, false⟩) = _
        rw [if_neg (by omega)]
      | some lt =>
        have hlt : lt < c := hlast lt rfl
        show (if (c : Int) ≤ lt then (⟨⟨acc, c, some lt, cf⟩, true⟩ : StepOut)
          else if (c : Int) ≥ e then (⟨⟨acc ++ [[⟨c, 0⟩]], c + 1, some c, 0⟩, true⟩ : StepOut)
          else ⟨⟨acc ++ [[⟨c, 0⟩]], c + 1, some c, 0⟩, false⟩) = _
        rw [if_neg (by omega), if_neg (by omega)]
    rw [hstep]
    show (match run msAdapter e d n ⟨acc ++ [[⟨c, 0⟩]], c + 1, some c, 0⟩ with
      | some (t, m) => some (t, m + 1)
      | none => none) = _
    rw [run_msAdapter n e d (acc ++ [[(⟨c, 0⟩ : Record)]]) (c + 1) (some c) 0
      (by omega) (fun lt hlt => by injection hlt with h; omega)]
    have hlist : (acc ++ [[(⟨c, 0⟩ : Record)]]) ++
        (List.range n).map (fun (k : Nat) => [(⟨c + 1 + (k : Int), 0⟩ : Record)]) =
        acc ++ (List.range (n + 1)).map (fun (k : Nat) => [(⟨c + (k : Int), 0⟩ : Record)]) := by
      rw [List.append_assoc]
      congr 1
      rw [List.range_succ_eq_map, List.map_cons, List.map_map]
      show [(⟨c, 0⟩ : Record)] :: _ = _ :: _
      congr 1
      · simp
      · apply List.map_congr_left
        intro k _
        show [(⟨c + 1 + (k : Int), 0⟩ : Record)] = [⟨c + ((k + 1 : Nat) : Int), 0⟩]
        simp only [List.cons.injEq, Record.mk.injEq, and_true]
        omega
    rw [if_neg (Nat.succ_ne_zero n), if_neg (Nat.succ_ne_zero n)]
    by_cases hn : n = 0
    · subst hn
      rw [hlist]
      have he : some c = some (e - 1) := by
        have h2 : c = e - 1 := by omega
        rw [h2]
      rw [if_pos rfl, if_pos rfl, he]
    · rw [if_neg hn, if_neg hn, hlist]

/-- Flattening singleton pages recovers the record sequence. -/
theorem flatten_map_singleton (g : Nat → Record) :
    ∀ l : List Nat, (l.map (fun k => [g k])).flatten = l.map g
  | [] => rfl
  | x :: xs => by simp [flatten_map_singleton g xs]

/-- The scenario's accumulated records carry pairwise-distinct timestamps. -/
theorem c3Records_pairwise : c3Records.Pairwise tsNE := by
  unfold c3Records
  rw [List.pairwise_map]
  refine (List.pairwise_lt_range 259200000).imp ?_
  intro a b hab
  show c3Start + (a : Int) ≠ c3Start + (b : Int)
  omega

/-- The scenario's accumulated records are already ascending. -/
theorem c3Records_sorted : List.Sorted tsLE c3Records := by
  unfold c3Records
  show List.Pairwise tsLE _
  rw [List.pairwise_map]
  refine (List.pairwise_lt_range 259200000).imp ?_
  intro a b hab
  show c3Start + (a : Int) ≤ c3Start + (b : Int)
  omega

/-- End-to-end value of the scenario fetch. -/
theorem getBatched_msAdapter_eq :
    getBatchedData msAdapter c3End 86400000 259200000 c3Start =
      some (some c3Records, 259200000) := by
  rw [getBatchedData_eq]
  rw [run_msAdapter 259200000 c3End 86400000 [] c3Start none 0
    (by norm_num [c3Start, c3End]) (fun lt hlt => Option.noConfusion hlt)]
  show some (finalize ([] ++ (List.range 259200000).map
    (fun (k : Nat) => [(⟨c3Start + (k : Int), 0⟩ : Record)])), 259200000) = _
  rw [List.nil_append]
  unfold finalize
  rw [if_neg (by simp [List.isEmpty_eq_true, List.map_eq_nil_iff, List.range_eq_nil])]
  show some (some (List.insertionSort tsLE (dedupAux []
    ((List.range 259200000).map
      (fun (k : Nat) => [(⟨c3Start + (k : Int), 0⟩ : Record)])).flatten)),
    259200000) = _
  rw [flatten_map_singleton (fun (k : Nat) => (⟨c3Start + (k : Int), 0⟩ : Record))
    (List.range 259200000)]
  show some (some (List.insertionSort tsLE (dedupAux [] c3Records)), 259200000) = _
  rw [dedupAux_eq_self c3Records [] c3Records_pairwise
    (fun r _ => List.not_mem_nil r.timestamp),
    List.Sorted.insertionSort_eq c3Records_sorted]

/-- C3 counterexample: with the scenario's stub adapter (one record at the
window's start), the fetch for `[2024-01-01, 2024-01-04)` at step = 1 day
makes 259200000 adapter calls and returns 259200000 records — not the
claimed 3 records — because the cursor advances to the page's last
timestamp + 1ms rather than to the window end. -/
theorem c3_counterexample :
    (getBatchedData msAdapter c3End 86400000 259200000 c3Start).map
      (fun p => (p.1.map List.length, p.2)) = some (some 259200000, 259200000) ∧
    (259200000 : Nat) ≠ 3 := by
  refine ⟨?_, by omega⟩
  rw [getBatched_msAdapter_eq]
  simp [c3Records]

/-- C3 amended: under the scenario's stub adapter the loop advances one
millisecond per call, so the fetch for `[2024-01-01, 2024-01-04)` at
step = 1 day terminates after exactly 259200000 adapter calls and returns
one record per millisecond of the range (timestamps `c3Start + k` for
`k < 259200000`), rather than the 3 day-boundary records the spec's
scenario expects. -/
theorem c3_step_advance :
    getBatchedData msAdapter c3End 86400000 259200000 c3Start =
      some (some c3Records, 259200000) :=
  getBatched_msAdapter_eq

end BinanceFetch
